import Mathlib

/-!
Shallow embedding of the psephosis repository (src/apis/polymarket.py and
src/apis/wikipedia.py) together with proofs about its pagination, aggregation,
parsing and orchestration logic.

Modelling conventions:
* Python `datetime` values are modelled as integer epoch timestamps (seconds);
  `datetime + timedelta(days=15)` becomes `+ 15 * 86400`.
* The Python standard-library date parsers (`datetime.fromisoformat`,
  `datetime.strptime`) are external collaborators; they are passed in as
  oracle functions `iso : String → Option Int` and
  `strp : String → String → Option Int` (input string, format string).
* HTTP responses are external inputs: the price endpoint is an oracle from the
  request window to a response, the trade endpoint is the finite sequence of
  pages the upstream serves to the successive requests (after the sequence is
  exhausted the upstream serves empty pages).
* Python exceptions become the `PyErr` error type in `Except` results.
* Numeric trade quantities (`float(size)`) are modelled as rationals.
-/

deriving instance DecidableEq for Except

/-- Python exceptions that the code in `src/apis/polymarket.py` can raise. -/
inductive PyErr where
  /-- `APIRequestError` from polymarket.py. -/
  | apiRequestError (msg : String)
  /-- `InvalidURLError` from polymarket.py. -/
  | invalidURLError (msg : String)
  /-- Python built-in `ValueError` (raised by `parse_date`). -/
  | valueError (msg : String)
  /-- Python built-in `KeyError` (raised by a dict lookup of a missing key). -/
  | keyError (key : String)
  /-- Python built-in `IndexError` (raised by `token_ids[0]` on an empty list). -/
  | indexError (msg : String)
deriving DecidableEq, Repr

/-- Trade side as it appears in the `side` field of a trade object. -/
inductive Side where
  | BUY
  | SELL
  | UNKNOWN
deriving DecidableEq, Repr

/-- A date argument: either an object already in canonical point-in-time form
(a `datetime`, modelled as an epoch timestamp) or a string to be parsed. -/
inductive DateInput where
  | dt (t : Int)
  | str (s : String)
deriving DecidableEq, Repr

/-- One item of the `history` array of the price endpoint; the fields pass
through `price_history` unmodified. -/
structure PricePoint where
  t : Int
  p : ℚ
deriving DecidableEq, Repr

/-- A raw trade object returned by the trade endpoint.  `timestamp` and `size`
are `Option`s because `trade.get('timestamp')` / `trade.get('size')` may be
absent; `side` is an `Option` because `trade.get('side', 'UNKNOWN')` defaults
when the field is absent. -/
structure RawTrade where
  timestamp : Option Int
  size : Option ℚ
  side : Option Side
deriving DecidableEq, Repr

/-- A validated trade appended to `all_trades` in `volume_history`. -/
structure Trade where
  timestamp : Int
  quantity : ℚ
  side : Side
deriving DecidableEq, Repr

/-- One record of the list returned by `volume_history` (lines 243-251).
The counts are rationals because the Python code accumulates them in the same
dict as the (float) volumes. -/
structure VolumeBucket where
  timestamp : Int
  buy_volume : ℚ
  sell_volume : ℚ
  buy_count : ℚ
  sell_count : ℚ
deriving DecidableEq, Repr

/-- The per-market metadata record built by `fetch_market_metadata`
(lines 82-88).  `clob_token_ids` is modelled after the `json.loads` decoding
that `fetch` performs on the JSON-encoded string. -/
structure MarketInfo where
  start_date : Option DateInput
  end_date : Option DateInput
  condition_id : String
  clob_token_ids : List String
deriving DecidableEq, Repr

/-- The per-market result record built by `fetch` (lines 314-329). -/
structure Series where
  prices : List PricePoint
  volumes : List VolumeBucket
deriving DecidableEq, Repr

/-! ### Date normalizers (polymarket.py lines 24-41, wikipedia.py lines 4-15) -/

/-- The format strings of the `for fmt in [...]` loop shared by both clients. -/
def pyDateFormats : List String := ["%Y-%m-%d", "%Y/%m/%d", "%m-%d-%Y", "%m/%d/%Y"]

/-- `date_input.replace('Z', '+00:00')`: every occurrence of the one-character
substring `Z` is replaced by `+00:00`. -/
def replaceZ (s : String) : String :=
  ⟨s.data.flatMap fun c => if c = 'Z' then "+00:00".data else [c]⟩

/-- The `for fmt in [...]: try strptime / except: continue` loop: returns the
first format the oracle parses, in order. -/
def strpChain (strp : String → String → Option Int) (s : String) :
    List String → Option Int
  | [] => none
  | fmt :: rest =>
    match strp s fmt with
    | some t => some t
    | none => strpChain strp s rest

namespace Polymarket

/-- `parse_date` from polymarket.py (lines 24-41): a `datetime` is returned
unchanged; a string is first tried with `fromisoformat` after replacing `Z`
with `+00:00`, then with the four `strptime` formats in order; otherwise a
`ValueError` is raised. -/
def parse_date (iso : String → Option Int) (strp : String → String → Option Int) :
    DateInput → Except PyErr Int
  | .dt t => .ok t
  | .str s =>
    match iso (replaceZ s) with
    | some t => .ok t
    | none =>
      match strpChain strp s pyDateFormats with
      | some t => .ok t
      | none => .error (.valueError ("Could not parse date: " ++ s))

end Polymarket

namespace Wikipedia

/-- `parse_date` from wikipedia.py (lines 4-15): a `datetime` is returned
unchanged; a string is tried with the four `strptime` formats in order; there
is no `fromisoformat` attempt; otherwise a `ValueError` is raised. -/
def parse_date (strp : String → String → Option Int) :
    DateInput → Except PyErr Int
  | .dt t => .ok t
  | .str s =>
    match strpChain strp s pyDateFormats with
    | some t => .ok t
    | none => .error (.valueError ("Could not parse date: " ++ s))

end Wikipedia

/-- Formalisation of the spec's words for the Date Normalizer: "attempts parse
in this fixed priority order ...; returns the first successful parse".  Used to
compare the two clients' normalizers against the specified parser chain. -/
def firstSuccessfulParse (parsers : List (String → Option Int)) (s : String) :
    Option Int :=
  match parsers with
  | [] => none
  | p :: rest =>
    match p s with
    | some t => some t
    | none => firstSuccessfulParse rest s

/-- The parser chain the spec prescribes for the market client: full ISO-8601
(with `Z` replaced by a UTC offset) followed by the four `strptime` formats. -/
def polyParserChain (iso : String → Option Int)
    (strp : String → String → Option Int) : List (String → Option Int) :=
  (fun s => iso (replaceZ s)) :: pyDateFormats.map fun fmt => fun s => strp s fmt

/-- The parser chain actually attempted by the encyclopedia client: only the
four `strptime` formats. -/
def wikiParserChain (strp : String → String → Option Int) :
    List (String → Option Int) :=
  pyDateFormats.map fun fmt => fun s => strp s fmt

/-! ### Placeholder filter (polymarket.py lines 93-106) -/

/-- Python `str.lower()` on one character (ASCII, which is all that appears in
market questions). -/
def pyCharLower (c : Char) : Char :=
  if 'A' ≤ c && c ≤ 'Z' then Char.ofNat (c.toNat + 32) else c

/-- Python `question.lower()`. -/
def pyLower (s : String) : String := ⟨s.data.map pyCharLower⟩

/-- Python `\s` (ASCII part, which is all that appears in market questions). -/
def isPySpace (c : Char) : Bool :=
  c = ' ' || c = '\t' || c = '\n' || c = '\r' || c = '\x0b' || c = '\x0c'

/-- Python `\w` (ASCII part): letters, digits and underscore. -/
def isWordChar (c : Char) : Bool :=
  c.isAlpha || c.isDigit || c = '_'

/-- The character class `[a-z]` of the placeholder pattern. -/
def isLowerAZ (c : Char) : Bool :=
  'a' ≤ c && c ≤ 'z'

/-- The character class `[\s"\)]` of the placeholder pattern. -/
def placeholderSepClass (c : Char) : Bool :=
  isPySpace c || c = '"' || c = ')'

/-- Matching of the pattern suffix `\s*(be|win|lose|"|$)` against a prefix of
the remaining characters: either one of the alternatives matches here (the
empty list is the `$` anchor), or the next character is whitespace consumed by
`\s*` and the suffix matches further on. -/
def placeholderTail : List Char → Bool
  | [] => true
  | c :: rest =>
    ['b', 'e'].isPrefixOf (c :: rest) || ['w', 'i', 'n'].isPrefixOf (c :: rest) ||
      ['l', 'o', 's', 'e'].isPrefixOf (c :: rest) || c = '"' ||
      (isPySpace c && placeholderTail rest)

/-- Matching of the full pattern `\b[a-z][\s"\)]\s*(be|win|lose|"|$)` at one
position, given the previous character (for the `\b` word boundary: since the
next pattern atom `[a-z]` is a word character, the boundary holds exactly when
the previous character is absent or not a word character). -/
def placeholderAt (prev : Option Char) : List Char → Bool
  | c1 :: c2 :: rest =>
    (match prev with
     | none => true
     | some p => !isWordChar p) &&
      isLowerAZ c1 && placeholderSepClass c2 && placeholderTail rest
  | _ => false

/-- `re.search`: the pattern matches at some position of the string. -/
def placeholderSearch : Option Char → List Char → Bool
  | prev, [] => placeholderAt prev []
  | prev, c :: rest => placeholderAt prev (c :: rest) || placeholderSearch (some c) rest

/-- `re.search(placeholder_pattern, question.lower())` is not `None`. -/
def hasPlaceholder (question : String) : Bool :=
  placeholderSearch none (pyLower question).data

namespace Polymarket

/-- `remove_placeholder_markets` (lines 93-106): keeps exactly the entries
whose lowered question does not match the placeholder pattern, preserving
insertion order (the Python dict is modelled as an association list). -/
def remove_placeholder_markets (market_dict : List (String × MarketInfo)) :
    List (String × MarketInfo) :=
  market_dict.filter fun qm => !hasPlaceholder qm.1

end Polymarket

/-! ### Identifier extractor (polymarket.py lines 44-54) -/

/-- The separator `"/event/"` as a character list. -/
def eventSep : List Char := ['/', 'e', 'v', 'e', 'n', 't', '/']

/-- Python's `url.split("/event/")`: a left-to-right scan; at each position, if
the separator is a prefix of the rest, the current field ends and the scan
resumes after the separator, otherwise the character joins the current field.
`acc` holds the current field reversed. -/
def splitEvent (s : List Char) (acc : List Char) : List (List Char) :=
  if _h : eventSep.isPrefixOf s then
    acc.reverse :: splitEvent (s.drop eventSep.length) []
  else
    match s with
    | [] => [acc.reverse]
    | c :: rest => splitEvent rest (c :: acc)
termination_by s.length
decreasing_by
  · have hp : eventSep <+: s := List.isPrefixOf_iff_prefix.mp _h
    have hlen : eventSep.length ≤ s.length := hp.length_le
    have h7 : eventSep.length = 7 := rfl
    simp only [List.length_drop]
    omega
  · simp

/-- Python's `"/event/" in url`: some suffix of the string starts with the
separator. -/
def containsSeq : List Char → Bool
  | [] => eventSep.isPrefixOf []
  | c :: rest => eventSep.isPrefixOf (c :: rest) || containsSeq rest

/-- Python's `str.strip()`: remove whitespace from both ends. -/
def pyStrip (l : List Char) : List Char :=
  ((l.dropWhile isPySpace).reverse.dropWhile isPySpace).reverse

namespace Polymarket

/-- `extract_event_slug` (lines 44-54): requires the substring `/event/`,
takes the final field of `url.split("/event/")`, strips it, and fails on an
absent marker or an empty stripped field. -/
def extract_event_slug (url : String) : Except PyErr String :=
  if containsSeq url.data = false then
    .error (.invalidURLError
      ("Invalid Polymarket URL: " ++ url ++ ". Must contain '/event/'"))
  else
    let slug := pyStrip ((splitEvent url.data []).getLastD [])
    if slug.isEmpty then
      .error (.invalidURLError ("Could not extract event slug from URL: " ++ url))
    else
      .ok ⟨slug⟩

end Polymarket

/-- Formalisation of the spec's words for the Identifier Extractor: "everything
after the last occurrence" of `/event/` — the suffix following the rightmost
position at which the separator occurs, or `none` when it never occurs. -/
def afterLastOccurrence (s : List Char) : Option (List Char) :=
  (((List.range (s.length + 1)).filter fun i =>
      eventSep.isPrefixOf (s.drop i)).getLast?).map
    fun i => s.drop (i + eventSep.length)

/-! ### Window-chunked price fetch (polymarket.py lines 109-161) -/

/-- `timedelta(days=15)` in seconds. -/
def fifteenDays : Int := 15 * 86400

namespace Polymarket

/-- The `while current_start < end` loop of `price_history` (lines 136-159):
each iteration requests the window from the cursor to
`min(current_start + timedelta(days=15), end)`, appends the `history` items of
the response (a response without a `history` key contributes nothing), and
moves the cursor to the window's end.  A transport failure raises
`APIRequestError` and discards everything.  Returns the issued request windows
together with the concatenated data. -/
def priceHistoryLoop
    (get : Int × Int → Except PyErr (Option (List PricePoint)))
    (cur endT : Int) : Except PyErr (List (Int × Int) × List PricePoint) :=
  if _h : cur < endT then
    match get (cur, min (cur + fifteenDays) endT) with
    | .error e => .error e
    | .ok resp =>
      match priceHistoryLoop get (min (cur + fifteenDays) endT) endT with
      | .error e => .error e
      | .ok (reqs, data) =>
        .ok ((cur, min (cur + fifteenDays) endT) :: reqs, resp.getD [] ++ data)
  else
    .ok ([], [])
termination_by (endT - cur).toNat
decreasing_by
  simp only [fifteenDays]
  omega

/-- `price_history` (lines 109-161): parses both dates, then runs the chunked
loop and returns the concatenated data. -/
def price_history
    (get : Int × Int → Except PyErr (Option (List PricePoint)))
    (iso : String → Option Int) (strp : String → String → Option Int)
    (_fidelity : Int) (start_date end_date : DateInput) :
    Except PyErr (List PricePoint) :=
  match parse_date iso strp start_date with
  | .error e => .error e
  | .ok s =>
    match parse_date iso strp end_date with
    | .error e => .error e
    | .ok e =>
      match priceHistoryLoop get s e with
      | .error err => .error err
      | .ok (_reqs, data) => .ok data

end Polymarket

/-- The request schedule of the chunked loop: the windows depend only on the
cursor and the end point, never on the responses. -/
def reqTrace (cur endT : Int) : List (Int × Int) :=
  if _h : cur < endT then
    (cur, min (cur + fifteenDays) endT) :: reqTrace (min (cur + fifteenDays) endT) endT
  else
    []
termination_by (endT - cur).toNat
decreasing_by
  simp only [fifteenDays]
  omega

/-! ### Offset-paginated trade fetch and volume aggregation
(polymarket.py lines 163-253) -/

/-- Per-item validation inside the page loop (lines 199-216): items missing a
timestamp or a size are skipped; the side defaults to `UNKNOWN` when absent;
the size is coerced to a number. -/
def validateTrade (r : RawTrade) : Option Trade :=
  match r.timestamp, r.size with
  | some ts, some sz => some { timestamp := ts, quantity := sz, side := r.side.getD .UNKNOWN }
  | _, _ => none

namespace Polymarket

/-- The `while True` pagination loop of `volume_history` (lines 184-229).
`pages` is the finite sequence of responses the upstream serves to the
successive requests (an exhausted sequence is served as an empty page).
Returns the offsets of the issued requests, the number of `time.sleep(1)`
calls performed (one after each validated trade is appended, line 218), and
the accumulated `all_trades` list.  An empty page breaks before validation; a
full page of 500 items advances the offset by 500; any shorter page breaks
after validation. -/
def volumeLoop (pages : List (Except PyErr (List RawTrade))) (offset : Nat) :
    Except PyErr (List Nat × Nat × List Trade) :=
  match pages with
  | [] => .ok ([offset], 0, [])
  | resp :: rest =>
    match resp with
    | .error e => .error e
    | .ok data =>
      if data.isEmpty then
        .ok ([offset], 0, [])
      else
        let valid := data.filterMap validateTrade
        if data.length = 500 then
          match volumeLoop rest (offset + 500) with
          | .error e => .error e
          | .ok (offs, sleeps, trades) =>
            .ok (offset :: offs, valid.length + sleeps, valid ++ trades)
        else
          .ok ([offset], valid.length, valid)

end Polymarket

/-- The inner accumulator dict created by the `defaultdict` factory
`lambda: {'BUY': 0, 'SELL': 0, 'BUY_COUNT': 0, 'SELL_COUNT': 0}` (line 232),
modelled as an association list in insertion order. -/
def initAcc : List (String × ℚ) :=
  [("BUY", 0), ("SELL", 0), ("BUY_COUNT", 0), ("SELL_COUNT", 0)]

/-- Python dict read `d[k]` returning `none` for a missing key. -/
def dictGet (d : List (String × ℚ)) (k : String) : Option ℚ :=
  match d with
  | [] => none
  | (k', v) :: rest => if k' = k then some v else dictGet rest k

/-- Python dict write `d[k] = v` on a key already present: replaces the value
in place, keeping the order. -/
def dictSet (d : List (String × ℚ)) (k : String) (v : ℚ) : List (String × ℚ) :=
  match d with
  | [] => []
  | (k', v') :: rest => if k' = k then (k', v) :: rest else (k', v') :: dictSet rest k v

/-- Python `d[k] += q`: reads the key (raising `KeyError` when absent) and
writes back the sum. -/
def accAdd (d : List (String × ℚ)) (k : String) (q : ℚ) :
    Except PyErr (List (String × ℚ)) :=
  match dictGet d k with
  | none => .error (.keyError k)
  | some v => .ok (dictSet d k (v + q))

/-- The string the Python code uses as the inner dict key for a side. -/
def sideKey : Side → String
  | .BUY => "BUY"
  | .SELL => "SELL"
  | .UNKNOWN => "UNKNOWN"

/-- The key `f'{side}_COUNT'`. -/
def countKey : Side → String
  | .BUY => "BUY_COUNT"
  | .SELL => "SELL_COUNT"
  | .UNKNOWN => "UNKNOWN_COUNT"

/-- The outer `defaultdict` keyed by bucket timestamp, as an association list
in insertion order. -/
def vmGet (m : List (Int × List (String × ℚ))) (k : Int) :
    Option (List (String × ℚ)) :=
  match m with
  | [] => none
  | (k', a) :: rest => if k' = k then some a else vmGet rest k

/-- Write-back into the outer dict: replace the entry when the key is present,
append it otherwise (`defaultdict` insertion). -/
def vmSet (m : List (Int × List (String × ℚ))) (k : Int) (a : List (String × ℚ)) :
    List (Int × List (String × ℚ)) :=
  match m with
  | [] => [(k, a)]
  | (k', a') :: rest => if k' = k then (k, a) :: rest else (k', a') :: vmSet rest k a

/-- The bucket key `chunk_ts = ts - (ts % fidelity)` (line 239); Python `%`
with a positive modulus agrees with `Int.emod`. -/
def chunkOf (fidelity : Int) (t : Trade) : Int :=
  t.timestamp - t.timestamp % fidelity

/-- One iteration of the aggregation loop (lines 234-241):
`volume_data[chunk_ts][side] += quantity` followed by
`volume_data[chunk_ts][f'{side}_COUNT'] += 1`; a side whose keys are not in
the inner dict raises `KeyError`. -/
def aggStep (fidelity : Int) (m : List (Int × List (String × ℚ))) (t : Trade) :
    Except PyErr (List (Int × List (String × ℚ))) :=
  let chunk := chunkOf fidelity t
  let acc := (vmGet m chunk).getD initAcc
  match accAdd acc (sideKey t.side) t.quantity with
  | .error e => .error e
  | .ok acc1 =>
    match accAdd acc1 (countKey t.side) 1 with
    | .error e => .error e
    | .ok acc2 => .ok (vmSet m chunk acc2)

/-- Reading one emitted bucket record (lines 244-251); the keys looked up are
always present for buckets created by `aggStep`. -/
def bucketOf (m : List (Int × List (String × ℚ))) (k : Int) : VolumeBucket :=
  let a := (vmGet m k).getD initAcc
  { timestamp := k
    buy_volume := (dictGet a "BUY").getD 0
    sell_volume := (dictGet a "SELL").getD 0
    buy_count := (dictGet a "BUY_COUNT").getD 0
    sell_count := (dictGet a "SELL_COUNT").getD 0 }

/-- The `for trade in all_trades` loop (lines 234-241): run `aggStep` over the
trades in order, threading the outer dict; the first raised exception aborts. -/
def aggLoop (fidelity : Int) (m : List (Int × List (String × ℚ))) :
    List Trade → Except PyErr (List (Int × List (String × ℚ)))
  | [] => .ok m
  | t :: rest =>
    match aggStep fidelity m t with
    | .error e => .error e
    | .ok m' => aggLoop fidelity m' rest

/-- The aggregation stage of `volume_history` (lines 232-253): fold the trades
through `aggStep`, then emit one record per bucket key in ascending key order
(`for chunk_ts in sorted(volume_data.keys())`). -/
def aggregateVolumes (fidelity : Int) (trades : List Trade) :
    Except PyErr (List VolumeBucket) :=
  match aggLoop fidelity [] trades with
  | .error e => .error e
  | .ok m =>
    .ok (((m.map Prod.fst).insertionSort (· ≤ ·)).map fun k => bucketOf m k)

namespace Polymarket

/-- `volume_history` (lines 163-253): parses both dates into (unused)
timestamps, pages through the trades, and aggregates them into buckets. -/
def volume_history (iso : String → Option Int) (strp : String → String → Option Int)
    (pages : List (Except PyErr (List RawTrade))) (fidelity : Int)
    (start_date end_date : DateInput) : Except PyErr (List VolumeBucket) :=
  match parse_date iso strp start_date with
  | .error e => .error e
  | .ok _startTs =>
    match parse_date iso strp end_date with
    | .error e => .error e
    | .ok _endTs =>
      match volumeLoop pages 0 with
      | .error e => .error e
      | .ok (_offs, _sleeps, trades) => aggregateVolumes fidelity trades

/-! ### Orchestrator (polymarket.py lines 256-334) -/

/-- The per-market body of the `for question, market_info in markets.items()`
loop of `fetch` (lines 308-329): take the first token id (an empty list raises
`IndexError`), fetch the price series, then the volume series with
`fidelity * 60`. -/
def fetchEntity
    (priceGet : String → Int × Int → Except PyErr (Option (List PricePoint)))
    (tradePages : String → List (Except PyErr (List RawTrade)))
    (iso : String → Option Int) (strp : String → String → Option Int)
    (fidelity : Int) (start_date end_date : DateInput) (info : MarketInfo) :
    Except PyErr Series :=
  match info.clob_token_ids with
  | [] => .error (.indexError "list index out of range")
  | tok :: _ =>
    match price_history (priceGet tok) iso strp fidelity start_date end_date with
    | .error e => .error e
    | .ok prices =>
      match volume_history iso strp (tradePages info.condition_id) (fidelity * 60)
          start_date end_date with
      | .error e => .error e
      | .ok vols => .ok { prices := prices, volumes := vols }

/-- The batch loop of `fetch` (lines 306-334): a per-entity `APIRequestError`
is caught (`except APIRequestError`), a warning is printed, and the entity is
skipped; any other exception propagates and aborts the whole batch, discarding
everything. -/
def fetchLoop
    (priceGet : String → Int × Int → Except PyErr (Option (List PricePoint)))
    (tradePages : String → List (Except PyErr (List RawTrade)))
    (iso : String → Option Int) (strp : String → String → Option Int)
    (fidelity : Int) (start_date end_date : DateInput) :
    List (String × MarketInfo) → Except PyErr (List (String × Series))
  | [] => .ok []
  | (question, info) :: rest =>
    match fetchEntity priceGet tradePages iso strp fidelity start_date end_date info with
    | .ok s =>
      match fetchLoop priceGet tradePages iso strp fidelity start_date end_date rest with
      | .error e => .error e
      | .ok tail => .ok ((question, s) :: tail)
    | .error (.apiRequestError _) =>
      fetchLoop priceGet tradePages iso strp fidelity start_date end_date rest
    | .error e => .error e

end Polymarket

/-! ### Auxiliary definitions used by the verification -/

/-- Joining fields back with the separator; inverse of `splitEvent`. -/
def joinSep : List (List Char) → List Char
  | [] => []
  | [p] => p
  | p :: q :: rest => p ++ eventSep ++ joinSep (q :: rest)

/-- An inner accumulator dict has the same key set as the `defaultdict`
factory dict: exactly the four side/count keys. -/
def accStd (a : List (String × ℚ)) : Prop :=
  ∀ k, (dictGet a k).isSome = (dictGet initAcc k).isSome

/-- Every inner dict of the outer bucket dict has the standard key set. -/
def vmStd (m : List (Int × List (String × ℚ))) : Prop :=
  ∀ p ∈ m, accStd p.2

/-- A `fromisoformat` oracle that fails on every input. -/
def isoNone : String → Option Int := fun _ => none

/-- A `strptime` oracle that fails on every input and format. -/
def strpNone : String → String → Option Int := fun _ _ => none

/-- A `fromisoformat` oracle capturing the stdlib behaviour on the single
string `2024-01-02T03:04:05+00:00` (the `Z`-replaced form of
`2024-01-02T03:04:05Z`, which none of the four `strptime` formats accepts). -/
def isoJan2 : String → Option Int :=
  fun s => if s = "2024-01-02T03:04:05+00:00" then some 1704164645 else none

/-- A price endpoint oracle whose responses carry no `history` key. -/
def priceGetNone : String → Int × Int → Except PyErr (Option (List PricePoint)) :=
  fun _ _ => .ok none

/-- A trade endpoint serving one page holding a single trade without a `side`
field (so the side defaults to `UNKNOWN`). -/
def tradePagesUnknownSide : String → List (Except PyErr (List RawTrade)) :=
  fun _ => [.ok [⟨some 10, some 1, none⟩]]

/-- A trade endpoint whose first request fails with `APIRequestError`. -/
def tradePagesBoom : String → List (Except PyErr (List RawTrade)) :=
  fun _ => [.error (.apiRequestError "boom")]

/-- Concrete market metadata records for the witnesses. -/
def infoA : MarketInfo := ⟨none, none, "c1", ["t1"]⟩

/-- A second concrete market metadata record. -/
def infoB : MarketInfo := ⟨none, none, "c2", ["t2"]⟩

unseal Rat.add

/-! ### Offset pagination: C2 and C6 -/

/-- C2: for the offset-paginated trade fetch starting at offset 0 with page
size 500: a response sequence of page sizes 500, 500, 240 issues exactly the
three requests at offsets 0, 500, 1000 and terminates after the third; an
empty first page issues exactly one request and returns no trades; an empty
page terminates pagination; a nonempty page shorter than 500 terminates
pagination after being validated; a full 500-item page advances the offset by
500 and continues with the remaining pages. -/
theorem claim2_offset_pagination
    (p1 p2 p3 d : List RawTrade) (rest : List (Except PyErr (List RawTrade)))
    (off : Nat) (h1 : p1.length = 500) (h2 : p2.length = 500) (h3 : p3.length = 240) :
    Polymarket.volumeLoop [.ok p1, .ok p2, .ok p3] 0 =
      .ok ([0, 500, 1000],
        (p1.filterMap validateTrade).length +
          ((p2.filterMap validateTrade).length + (p3.filterMap validateTrade).length),
        p1.filterMap validateTrade ++ (p2.filterMap validateTrade ++ p3.filterMap validateTrade)) ∧
    Polymarket.volumeLoop (.ok [] :: rest) off = .ok ([off], 0, []) ∧
    (d ≠ [] → d.length ≠ 500 →
      Polymarket.volumeLoop (.ok d :: rest) off =
        .ok ([off], (d.filterMap validateTrade).length, d.filterMap validateTrade)) ∧
    (d.length = 500 →
      Polymarket.volumeLoop (.ok d :: rest) off =
        (Polymarket.volumeLoop rest (off + 500)).map fun r =>
          (off :: r.1, (d.filterMap validateTrade).length + r.2.1,
            d.filterMap validateTrade ++ r.2.2)) := by
  have hne1 : p1.isEmpty = false := by cases p1 <;> simp_all
  have hne2 : p2.isEmpty = false := by cases p2 <;> simp_all
  have hne3 : p3.isEmpty = false := by cases p3 <;> simp_all
  refine ⟨?_, ?_, ?_, ?_⟩
  · simp [Polymarket.volumeLoop, hne1, hne2, hne3, h1, h2, h3]
  · simp [Polymarket.volumeLoop]
  · intro hd hlen
    have hne : d.isEmpty = false := by cases d <;> simp_all
    simp [Polymarket.volumeLoop, hne, hlen]
  · intro hlen
    have hne : d.isEmpty = false := by cases d <;> simp_all
    simp only [Polymarket.volumeLoop, hne, Bool.false_eq_true, if_false, hlen, if_true]
    cases Polymarket.volumeLoop rest (off + 500) with
    | error e => simp [Except.map]
    | ok r => simp [Except.map]

/-- Validating any number of copies of an item without timestamp and size
yields no trades. -/
theorem filterMap_validate_replicate_none (n : Nat) :
    (List.replicate n (⟨none, none, none⟩ : RawTrade)).filterMap validateTrade = [] := by
  induction n with
  | zero => rfl
  | succ n ih => simp [List.replicate_succ, validateTrade, ih]

/-- C2 witness: the page-size-[500, 500, 240] and empty-first-page scenarios
at concrete pages (500 copies of an invalid item validate to no trades). -/
theorem claim2_witness :
    Polymarket.volumeLoop
        [.ok (List.replicate 500 (⟨none, none, none⟩ : RawTrade)),
         .ok (List.replicate 500 (⟨none, none, none⟩ : RawTrade)),
         .ok (List.replicate 240 (⟨none, none, none⟩ : RawTrade))] 0 =
      .ok ([0, 500, 1000], 0, []) ∧
    Polymarket.volumeLoop (.ok [] :: []) 7 = .ok ([7], 0, []) := by
  have h := claim2_offset_pagination
    (List.replicate 500 (⟨none, none, none⟩ : RawTrade))
    (List.replicate 500 (⟨none, none, none⟩ : RawTrade))
    (List.replicate 240 (⟨none, none, none⟩ : RawTrade))
    [] [] 7 (List.length_replicate 500 _) (List.length_replicate 500 _)
    (List.length_replicate 240 _)
  refine ⟨?_, h.2.1⟩
  have h1 := h.1
  rw [h1, filterMap_validate_replicate_none, filterMap_validate_replicate_none]
  rfl

/-- C6 (amended): the fixed 1-second delay is executed once after each
validated trade item is appended (inside the per-item loop), so on a
successful paginated fetch the number of sleeps equals the number of
validated trades collected — not the number of page requests minus one. -/
theorem claim6_sleep_per_trade (pages : List (Except PyErr (List RawTrade))) :
    ∀ (off : Nat) (offs : List Nat) (sleeps : Nat) (trades : List Trade),
      Polymarket.volumeLoop pages off = .ok (offs, sleeps, trades) →
      sleeps = trades.length := by
  induction pages with
  | nil =>
    intro off offs sleeps trades h
    simp [Polymarket.volumeLoop] at h
    simp [h.2.1, h.2.2]
  | cons resp rest ih =>
    intro off offs sleeps trades h
    cases resp with
    | error e => simp [Polymarket.volumeLoop] at h
    | ok data =>
      by_cases hne : data.isEmpty
      · simp [Polymarket.volumeLoop, hne] at h
        simp [h.2.1, h.2.2]
      · by_cases hlen : data.length = 500
        · simp only [Polymarket.volumeLoop, hne, Bool.false_eq_true, if_false, hlen,
            if_true] at h
          cases heq : Polymarket.volumeLoop rest (off + 500) with
          | error e => rw [heq] at h; simp at h
          | ok r =>
            rw [heq] at h
            obtain ⟨r1, r2, r3⟩ := r
            have hrec := ih (off + 500) r1 r2 r3 heq
            simp only [Except.ok.injEq, Prod.mk.injEq] at h
            rw [← h.2.1, ← h.2.2, hrec]
            simp
        · simp [Polymarket.volumeLoop, hne, hlen] at h
          simp [← h.2.1, ← h.2.2]

/-- C6 witness: a successful run with one page of two valid trades has two
sleeps, the length of its collected trade list. -/
theorem claim6_witness :
    (2 : Nat) =
      ([⟨10, 1, .BUY⟩, ⟨20, 2, .SELL⟩] : List Trade).length :=
  claim6_sleep_per_trade
    [.ok [⟨some 10, some 1, some .BUY⟩, ⟨some 20, some 2, some .SELL⟩]]
    0 [0] 2 [⟨10, 1, .BUY⟩, ⟨20, 2, .SELL⟩] (by decide)

/-- C6 counterexample: one page request carrying two valid trades performs two
sleeps, not `requests - 1 = 0` as the claim states. -/
theorem claim6_counterexample :
    Polymarket.volumeLoop
        [.ok [⟨some 10, some 1, some .BUY⟩, ⟨some 20, some 2, some .SELL⟩]] 0 =
      .ok ([0], 2, [⟨10, 1, .BUY⟩, ⟨20, 2, .SELL⟩]) ∧
    (2 : Nat) ≠ ([0] : List Nat).length - 1 := by decide

/-! ### Date normalizers: C7 -/

/-- The `strptime` fallback loop equals the first successful parse over the
corresponding parser list. -/
theorem strpChain_eq_firstSuccessfulParse
    (strp : String → String → Option Int) (s : String) (fmts : List String) :
    strpChain strp s fmts =
      firstSuccessfulParse (fmts.map fun fmt => fun s' => strp s' fmt) s := by
  induction fmts with
  | nil => rfl
  | cons fmt rest ih =>
    simp only [strpChain, List.map_cons, firstSuccessfulParse, ih]

/-- C7 (amended): for every string input, the market client's date normalizer
returns the first successful parse of the spec's five-parser priority chain
(ISO-8601 with `Z` replaced, then the four `strptime` formats) and raises
`ValueError` when none succeeds; the encyclopedia client's normalizer does the
same but over only the four `strptime` formats — it never attempts the
ISO-8601 parse. -/
theorem claim7_parse_priority (iso : String → Option Int)
    (strp : String → String → Option Int) (s : String) :
    Polymarket.parse_date iso strp (.str s) =
      (match firstSuccessfulParse (polyParserChain iso strp) s with
       | some t => Except.ok t
       | none => Except.error (.valueError ("Could not parse date: " ++ s))) ∧
    Wikipedia.parse_date strp (.str s) =
      (match firstSuccessfulParse (wikiParserChain strp) s with
       | some t => Except.ok t
       | none => Except.error (.valueError ("Could not parse date: " ++ s))) := by
  have hhead : firstSuccessfulParse (polyParserChain iso strp) s =
      (match iso (replaceZ s) with
       | some t => some t
       | none => firstSuccessfulParse (wikiParserChain strp) s) := rfl
  have hwiki : firstSuccessfulParse (wikiParserChain strp) s =
      strpChain strp s pyDateFormats :=
    (strpChain_eq_firstSuccessfulParse strp s pyDateFormats).symm
  constructor
  · rw [hhead, hwiki]
    simp only [Polymarket.parse_date]
    cases iso (replaceZ s) with
    | some t => rfl
    | none => cases strpChain strp s pyDateFormats <;> rfl
  · rw [hwiki]
    simp only [Wikipedia.parse_date]

/-- C7 counterexample: on the ISO string `2024-01-02T03:04:05Z` — accepted by
`fromisoformat` after the `Z` replacement, rejected by all four `strptime`
formats — the market client's normalizer succeeds but the encyclopedia
client's raises `ValueError`, refuting the claim that the five-step priority
order holds for both clients' date normalizers. -/
theorem claim7_counterexample :
    Polymarket.parse_date isoJan2 strpNone (.str "2024-01-02T03:04:05Z") =
      .ok 1704164645 ∧
    Wikipedia.parse_date strpNone (.str "2024-01-02T03:04:05Z") =
      .error (.valueError "Could not parse date: 2024-01-02T03:04:05Z") := by
  decide

/-! ### Date independence of volume_history: C5 -/

/-- C5: `volume_history` ignores its start and end dates beyond parsing them:
with the same condition id (upstream pages) and fidelity, any two parseable
date pairs produce identical results (the commented-out range filter makes
`start_ts` and `end_ts` dead). -/
theorem claim5_volume_history_date_independent
    (iso : String → Option Int) (strp : String → String → Option Int)
    (pages : List (Except PyErr (List RawTrade))) (fidelity : Int)
    (d1 d2 d1' d2' : DateInput)
    (h1 : ∃ t, Polymarket.parse_date iso strp d1 = .ok t)
    (h2 : ∃ t, Polymarket.parse_date iso strp d2 = .ok t)
    (h3 : ∃ t, Polymarket.parse_date iso strp d1' = .ok t)
    (h4 : ∃ t, Polymarket.parse_date iso strp d2' = .ok t) :
    Polymarket.volume_history iso strp pages fidelity d1 d2 =
      Polymarket.volume_history iso strp pages fidelity d1' d2' := by
  obtain ⟨t1, h1⟩ := h1
  obtain ⟨t2, h2⟩ := h2
  obtain ⟨t3, h3⟩ := h3
  obtain ⟨t4, h4⟩ := h4
  simp only [Polymarket.volume_history, h1, h2, h3, h4]

/-- C5 witness: two different parseable date pairs give the same buckets. -/
theorem claim5_witness :
    Polymarket.volume_history isoNone strpNone
        [.ok [⟨some 10, some 1, some .BUY⟩]] 60 (.dt 1) (.dt 2) =
      Polymarket.volume_history isoNone strpNone
        [.ok [⟨some 10, some 1, some .BUY⟩]] 60 (.dt 300) (.dt 400) :=
  claim5_volume_history_date_independent isoNone strpNone
    [.ok [⟨some 10, some 1, some .BUY⟩]] 60 (.dt 1) (.dt 2) (.dt 300) (.dt 400)
    ⟨1, rfl⟩ ⟨2, rfl⟩ ⟨300, rfl⟩ ⟨400, rfl⟩

/-! ### Placeholder filter: C10 -/

/-- C10: the placeholder filter is a pure function of the metadata mapping:
its output is always a sublist (order-preserving subset) of its input; the
keep/remove decision is case-insensitive (it depends only on the lowered
question); it removes the entry questioned "Will Candidate A win?" while
retaining "Will the Lakers win the championship?", and it can remove zero,
some, or all entries. -/
theorem claim10_placeholder_filter (m : List (String × MarketInfo))
    (q q' : String) (hq : pyLower q = pyLower q') :
    (Polymarket.remove_placeholder_markets m).Sublist m ∧
    hasPlaceholder q = hasPlaceholder q' ∧
    (∀ info : MarketInfo,
      Polymarket.remove_placeholder_markets
          [("Will Candidate A win?", info),
           ("Will the Lakers win the championship?", info)] =
        [("Will the Lakers win the championship?", info)]) ∧
    (∀ info : MarketInfo,
      Polymarket.remove_placeholder_markets
          [("Will the Lakers win the championship?", info)] =
        [("Will the Lakers win the championship?", info)]) ∧
    (∀ info : MarketInfo,
      Polymarket.remove_placeholder_markets [("Will Candidate A win?", info)] = []) := by
  have hA : hasPlaceholder "Will Candidate A win?" = true := by decide
  have hL : hasPlaceholder "Will the Lakers win the championship?" = false := by decide
  refine ⟨List.filter_sublist m, ?_, ?_, ?_, ?_⟩
  · simp only [hasPlaceholder, hq]
  · intro info
    simp [Polymarket.remove_placeholder_markets, List.filter, hA, hL]
  · intro info
    simp [Polymarket.remove_placeholder_markets, List.filter, hL]
  · intro info
    simp [Polymarket.remove_placeholder_markets, List.filter, hA]

/-- C10 witness: the filter at a concrete mapping and a concrete pair of
questions differing only in case. -/
theorem claim10_witness :
    Polymarket.remove_placeholder_markets
        [("Will Candidate A win?", infoA),
         ("Will the Lakers win the championship?", infoB)] =
      [("Will the Lakers win the championship?", infoB)] ∧
    hasPlaceholder "WILL CANDIDATE A WIN?" = hasPlaceholder "will candidate a win?" := by
  have h1 := (claim10_placeholder_filter []
    "WILL CANDIDATE A WIN?" "will candidate a win?" (by decide)).2
  refine ⟨?_, h1.1⟩
  have hA : hasPlaceholder "Will Candidate A win?" = true := by decide
  have hL : hasPlaceholder "Will the Lakers win the championship?" = false := by decide
  simp [Polymarket.remove_placeholder_markets, List.filter, hA, hL]

/-! ### Window-chunked fetch: C1 -/

/-- The request schedule is empty once the cursor reaches or passes the end. -/
theorem reqTrace_stop (cur endT : Int) (h : endT ≤ cur) : reqTrace cur endT = [] := by
  rw [reqTrace.eq_def, dif_neg (not_lt.mpr h)]

/-- One window of the request schedule. -/
theorem reqTrace_step (cur endT : Int) (h : cur < endT) :
    reqTrace cur endT =
      (cur, min (cur + fifteenDays) endT) :: reqTrace (min (cur + fifteenDays) endT) endT := by
  rw [reqTrace.eq_def, dif_pos h]

/-- The chunked loop stops immediately when the cursor reaches or passes the
end point. -/
theorem priceHistoryLoop_stop
    (get : Int × Int → Except PyErr (Option (List PricePoint))) (cur endT : Int)
    (h : endT ≤ cur) : Polymarket.priceHistoryLoop get cur endT = .ok ([], []) := by
  rw [Polymarket.priceHistoryLoop.eq_def, dif_neg (not_lt.mpr h)]

/-- One iteration of the chunked loop. -/
theorem priceHistoryLoop_step
    (get : Int × Int → Except PyErr (Option (List PricePoint))) (cur endT : Int)
    (h : cur < endT) :
    Polymarket.priceHistoryLoop get cur endT =
      (match get (cur, min (cur + fifteenDays) endT) with
       | .error e => .error e
       | .ok resp =>
         match Polymarket.priceHistoryLoop get (min (cur + fifteenDays) endT) endT with
         | .error e => .error e
         | .ok (reqs, data) =>
           .ok ((cur, min (cur + fifteenDays) endT) :: reqs, resp.getD [] ++ data)) := by
  rw [Polymarket.priceHistoryLoop.eq_def, dif_pos h]

/-- When every request succeeds, the chunked loop issues exactly the schedule
`reqTrace cur endT` — independent of the response contents — and returns the
responses' items concatenated in request order. -/
theorem priceHistoryLoop_ok (f : Int × Int → Option (List PricePoint)) (endT : Int) :
    ∀ (n : Nat) (cur : Int), (endT - cur).toNat = n →
      Polymarket.priceHistoryLoop (fun r => .ok (f r)) cur endT =
        .ok (reqTrace cur endT, (reqTrace cur endT).flatMap fun r => (f r).getD []) := by
  intro n
  induction n using Nat.strong_induction_on with
  | _ n ih =>
    intro cur hn
    by_cases h : cur < endT
    · have hlt : (endT - min (cur + fifteenDays) endT).toNat < n := by
        simp only [fifteenDays] at hn ⊢
        omega
      have hrec := ih _ hlt (min (cur + fifteenDays) endT) rfl
      rw [priceHistoryLoop_step _ _ _ h, hrec, reqTrace_step _ _ h]
      simp
    · rw [priceHistoryLoop_stop _ _ _ (not_lt.mp h), reqTrace_stop _ _ (not_lt.mp h)]
      simp

/-- C1: the window-chunked price fetch terminates immediately once the cursor
reaches or passes the end point; on an all-successful response oracle it
issues exactly the request schedule `reqTrace` — whose windows depend only on
the cursor and end point, advancing by the 15-day window regardless of how
much data each response carries — and concatenates the responses' data items
in arrival order; and for a range of exactly 40 days the schedule is exactly
the three windows of 15, 15 and 10 days. -/
theorem claim1_window_chunked_fetch
    (get : Int × Int → Except PyErr (Option (List PricePoint)))
    (f : Int × Int → Option (List PricePoint)) (cur endT s : Int) :
    (endT ≤ cur → Polymarket.priceHistoryLoop get cur endT = .ok ([], [])) ∧
    Polymarket.priceHistoryLoop (fun r => .ok (f r)) cur endT =
      .ok (reqTrace cur endT, (reqTrace cur endT).flatMap fun r => (f r).getD []) ∧
    reqTrace s (s + 40 * 86400) =
      [(s, s + 15 * 86400), (s + 15 * 86400, s + 30 * 86400),
       (s + 30 * 86400, s + 40 * 86400)] := by
  refine ⟨fun h => priceHistoryLoop_stop get cur endT h,
    priceHistoryLoop_ok f endT _ cur rfl, ?_⟩
  have h1 : min (s + fifteenDays) (s + 40 * 86400) = s + 15 * 86400 := by
    simp only [fifteenDays]; omega
  have h2 : min (s + 15 * 86400 + fifteenDays) (s + 40 * 86400) = s + 30 * 86400 := by
    simp only [fifteenDays]; omega
  have h3 : min (s + 30 * 86400 + fifteenDays) (s + 40 * 86400) = s + 40 * 86400 := by
    simp only [fifteenDays]; omega
  rw [reqTrace_step _ _ (by omega), h1, reqTrace_step _ _ (by omega), h2,
    reqTrace_step _ _ (by omega), h3, reqTrace_stop _ _ (by omega)]

/-- C1 witness: the loop at a cursor already past the end, and a full 40-day
run with every response holding one point, at concrete inputs. -/
theorem claim1_witness :
    Polymarket.priceHistoryLoop (fun _ => .ok none) 5 3 = .ok ([], []) ∧
    Polymarket.priceHistoryLoop (fun r => .ok ((fun _ => some [⟨1, 1⟩]) r)) 0 3456000 =
      .ok ([(0, 1296000), (1296000, 2592000), (2592000, 3456000)],
        [⟨1, 1⟩, ⟨1, 1⟩, ⟨1, 1⟩]) := by
  have h := claim1_window_chunked_fetch (fun _ => .ok none)
    (fun _ => some [⟨1, 1⟩]) 0 3456000 0
  refine ⟨(claim1_window_chunked_fetch (fun _ => .ok none)
    (fun _ => some [⟨1, 1⟩]) 5 3 0).1 (by norm_num), ?_⟩
  have h2 := h.2.1
  have h3 := h.2.2
  norm_num at h3
  rw [h2, h3]
  rfl

/-! ### Identifier extractor: C8 -/

/-- The split always yields at least one field. -/
theorem splitEvent_ne_nil (s acc : List Char) : splitEvent s acc ≠ [] := by
  induction s, acc using splitEvent.induct with
  | case1 s acc _h ih =>
    rw [splitEvent.eq_def, dif_pos _h]
    simp
  | case2 acc _h1 _h2 =>
    rw [splitEvent.eq_def, dif_neg _h1]
    simp
  | case3 acc c rest _h1 _h2 ih =>
    rw [splitEvent.eq_def, dif_neg _h1]
    exact ih

/-- Unfolding of `joinSep` on a cons with a nonempty tail. -/
theorem joinSep_cons (p : List Char) (ps : List (List Char)) (h : ps ≠ []) :
    joinSep (p :: ps) = p ++ eventSep ++ joinSep ps := by
  cases ps with
  | nil => exact absurd rfl h
  | cons q rest => rfl

/-- Joining the split fields with the separator restores the input. -/
theorem joinSep_splitEvent (s acc : List Char) :
    joinSep (splitEvent s acc) = acc.reverse ++ s := by
  induction s, acc using splitEvent.induct with
  | case1 s acc _h ih =>
    rw [splitEvent.eq_def, dif_pos _h]
    rw [joinSep_cons _ _ (splitEvent_ne_nil _ _), ih]
    have hp : eventSep <+: s := List.isPrefixOf_iff_prefix.mp _h
    obtain ⟨t, ht⟩ := hp
    subst ht
    simp
  | case2 acc _h1 _h2 =>
    rw [splitEvent.eq_def, dif_neg _h1]
    simp [joinSep]
  | case3 acc c rest _h1 _h2 ih =>
    rw [splitEvent.eq_def, dif_neg _h1]
    simp only [ih]
    simp

/-- The separator occurs in the string exactly when the split has at least two
fields. -/
theorem containsSeq_iff_two_le (s acc : List Char) :
    containsSeq s = true ↔ 2 ≤ (splitEvent s acc).length := by
  induction s, acc using splitEvent.induct with
  | case1 s acc _h ih =>
    rw [splitEvent.eq_def, dif_pos _h]
    cases s with
    | nil => simp [eventSep, List.isPrefixOf] at _h
    | cons c rest =>
      simp only [containsSeq, _h, Bool.true_or, List.length_cons, true_iff]
      have hne := splitEvent_ne_nil (List.drop eventSep.length (c :: rest)) []
      have hpos : 1 ≤ (splitEvent (List.drop eventSep.length (c :: rest)) []).length := by
        cases heq : splitEvent (List.drop eventSep.length (c :: rest)) [] with
        | nil => exact absurd heq hne
        | cons a b => simp
      omega
  | case2 acc _h1 _h2 =>
    rw [splitEvent.eq_def, dif_neg _h1]
    simp [containsSeq, eventSep, List.isPrefixOf]
  | case3 acc c rest _h1 _h2 ih =>
    rw [splitEvent.eq_def, dif_neg _h1]
    simp only [containsSeq, _h1, Bool.false_or]
    exact ih

/-- `joinSep` of a list ending in `p` splits off `sep ++ p`. -/
theorem joinSep_append_last (ps : List (List Char)) (p : List Char) (h : ps ≠ []) :
    joinSep (ps ++ [p]) = joinSep ps ++ eventSep ++ p := by
  induction ps with
  | nil => exact absurd rfl h
  | cons q qs ih =>
    cases qs with
    | nil => simp [joinSep]
    | cons r rs =>
      rw [List.cons_append, joinSep_cons _ _ (by simp),
        joinSep_cons _ _ (by simp), ih (by simp)]
      simp [List.append_assoc]

/-- C8 (amended): for every URL without `/event/` the extractor fails with
`InvalidURLError`; for every URL containing `/event/` the extractor takes the
final field of the left-to-right non-overlapping split on `/event/` (Python
`str.split` — this is everything after the last occurrence except when
occurrences of `/event/` overlap), a field which really is a suffix of the URL
preceded by an occurrence of `/event/`; it returns that field trimmed of
surrounding whitespace, or fails with `InvalidURLError` when the trimmed field
is empty. -/
theorem claim8_extract_slug (url : String) :
    (containsSeq url.data = false →
      Polymarket.extract_event_slug url =
        .error (.invalidURLError
          ("Invalid Polymarket URL: " ++ url ++ ". Must contain '/event/'"))) ∧
    (containsSeq url.data = true →
      (∃ pre, url.data = pre ++ eventSep ++ (splitEvent url.data []).getLastD []) ∧
      (pyStrip ((splitEvent url.data []).getLastD []) = [] →
        Polymarket.extract_event_slug url =
          .error (.invalidURLError ("Could not extract event slug from URL: " ++ url))) ∧
      (pyStrip ((splitEvent url.data []).getLastD []) ≠ [] →
        Polymarket.extract_event_slug url =
          .ok ⟨pyStrip ((splitEvent url.data []).getLastD [])⟩)) := by
  constructor
  · intro h
    simp [Polymarket.extract_event_slug, h]
  · intro h
    have hlen : 2 ≤ (splitEvent url.data []).length :=
      (containsSeq_iff_two_le url.data []).mp h
    have hne : splitEvent url.data [] ≠ [] := splitEvent_ne_nil _ _
    have hlastD : (splitEvent url.data []).getLastD [] =
        (splitEvent url.data []).getLast hne := by
      rw [List.getLastD_eq_getLast?, List.getLast?_eq_getLast_of_ne_nil hne]
      rfl
    refine ⟨?_, ?_, ?_⟩
    · have hjoin : joinSep (splitEvent url.data []) = url.data := by
        have := joinSep_splitEvent url.data []
        simpa using this
      have hsplit : (splitEvent url.data []).dropLast ++
          [(splitEvent url.data []).getLast hne] = splitEvent url.data [] :=
        List.dropLast_append_getLast hne
      have hdne : (splitEvent url.data []).dropLast ≠ [] := by
        intro hd
        have := congrArg List.length hsplit
        rw [hd] at this
        simp at this
        omega
      refine ⟨joinSep (splitEvent url.data []).dropLast, ?_⟩
      have hj : joinSep ((splitEvent url.data []).dropLast ++
          [(splitEvent url.data []).getLast hne]) =
          joinSep (splitEvent url.data []).dropLast ++ eventSep ++
            (splitEvent url.data []).getLast hne :=
        joinSep_append_last _ _ hdne
      rw [hsplit] at hj
      rw [hlastD]
      conv_lhs => rw [← hjoin]
      exact hj
    · intro hempty
      rw [List.getLastD_eq_getLast?] at hempty
      simp only [Polymarket.extract_event_slug, h]
      simp [hempty]
    · intro hnonempty
      rw [List.getLastD_eq_getLast?] at hnonempty
      simp only [Polymarket.extract_event_slug, h]
      simp [hnonempty, List.isEmpty_iff]

/-- C8 witness: a URL without the marker fails with `InvalidURLError`. -/
theorem claim8_witness :
    Polymarket.extract_event_slug "https://example.com/page" =
      .error (.invalidURLError
        ("Invalid Polymarket URL: https://example.com/page. Must contain '/event/'")) :=
  (claim8_extract_slug "https://example.com/page").1 (by decide)

/-- C8 counterexample: on `x/event/event/` the two occurrences of `/event/`
overlap; everything after the last (rightmost) occurrence is empty, so the
claim requires `InvalidURLError`, but the code returns the slug `event/`
(the final field of the non-overlapping split). -/
theorem claim8_counterexample :
    Polymarket.extract_event_slug "x/event/event/" = .ok "event/" ∧
    afterLastOccurrence "x/event/event/".data = some [] ∧
    pyStrip [] = [] := by
  refine ⟨?_, by decide, by decide⟩
  simp [Polymarket.extract_event_slug, splitEvent, eventSep, containsSeq, pyStrip, isPySpace]

/-! ### Volume aggregation invariants: C3 and C4 -/

/-- Updating a present key never changes which keys are present. -/
theorem dictGet_dictSet_isSome (d : List (String × ℚ)) (k : String) (v : ℚ)
    (k' : String) : (dictGet (dictSet d k v) k').isSome = (dictGet d k').isSome := by
  induction d with
  | nil => rfl
  | cons p rest ih =>
    obtain ⟨k0, v0⟩ := p
    by_cases h : k0 = k
    · subst h
      by_cases h' : k0 = k'
      · subst h'
        simp [dictGet, dictSet]
      · simp [dictGet, dictSet, h']
    · by_cases h' : k0 = k'
      · subst h'
        simp [dictGet, dictSet, h]
      · simp [dictGet, dictSet, h, h', ih]

/-- `dictSet` preserves the standard key set. -/
theorem accStd_dictSet (a : List (String × ℚ)) (k : String) (v : ℚ)
    (h : accStd a) : accStd (dictSet a k v) := by
  intro k'
  rw [dictGet_dictSet_isSome]
  exact h k'

/-- On a dict with the standard key set, `d[k] += q` succeeds for any of the
four standard keys and preserves the key set. -/
theorem accAdd_ok (a : List (String × ℚ)) (k : String) (q : ℚ)
    (h : accStd a) (hk : (dictGet initAcc k).isSome = true) :
    ∃ a', accAdd a k q = .ok a' ∧ accStd a' := by
  have hsome : (dictGet a k).isSome = true := by rw [h k]; exact hk
  cases heq : dictGet a k with
  | none => rw [heq] at hsome; simp at hsome
  | some v =>
    refine ⟨dictSet a k (v + q), ?_, accStd_dictSet a k (v + q) h⟩
    simp [accAdd, heq]

/-- On a dict with the standard key set, `d['UNKNOWN'] += q` raises
`KeyError('UNKNOWN')`. -/
theorem accAdd_unknown (a : List (String × ℚ)) (q : ℚ) (h : accStd a) :
    accAdd a "UNKNOWN" q = .error (.keyError "UNKNOWN") := by
  have hnone : (dictGet a "UNKNOWN").isSome = false := by
    rw [h "UNKNOWN"]; decide
  cases heq : dictGet a "UNKNOWN" with
  | none => simp [accAdd, heq]
  | some v => rw [heq] at hnone; simp at hnone

/-- A successful outer-dict lookup returns an entry of the dict. -/
theorem vmGet_mem (m : List (Int × List (String × ℚ))) (k : Int)
    (a : List (String × ℚ)) (h : vmGet m k = some a) : (k, a) ∈ m := by
  induction m with
  | nil => simp [vmGet] at h
  | cons p rest ih =>
    obtain ⟨k0, a0⟩ := p
    by_cases hk : k0 = k
    · subst hk
      simp [vmGet] at h
      simp [h]
    · simp [vmGet, hk] at h
      simp [ih h]

/-- The accumulator obtained for a bucket (present entry or `defaultdict`
factory dict) has the standard key set whenever the outer dict is standard. -/
theorem accStd_of_vmStd (m : List (Int × List (String × ℚ))) (k : Int)
    (h : vmStd m) : accStd ((vmGet m k).getD initAcc) := by
  cases heq : vmGet m k with
  | none =>
    intro k'
    rfl
  | some a =>
    have := h (k, a) (vmGet_mem m k a heq)
    simpa using this

/-- Key membership after an outer-dict write. -/
theorem mem_vmSet_keys_iff (m : List (Int × List (String × ℚ))) (k : Int)
    (a : List (String × ℚ)) (k' : Int) :
    k' ∈ (vmSet m k a).map Prod.fst ↔ k' = k ∨ k' ∈ m.map Prod.fst := by
  induction m with
  | nil => simp [vmSet, eq_comm]
  | cons p rest ih =>
    obtain ⟨k0, a0⟩ := p
    by_cases hk : k0 = k
    · subst hk
      have hv : vmSet ((k0, a0) :: rest) k0 a = (k0, a) :: rest := by
        simp [vmSet]
      rw [hv]
      simp only [List.map_cons, List.mem_cons]
      tauto
    · simp only [vmSet, if_neg hk, List.map_cons, List.mem_cons, ih]
      tauto

/-- An outer-dict write preserves key distinctness. -/
theorem nodup_vmSet (m : List (Int × List (String × ℚ))) (k : Int)
    (a : List (String × ℚ)) (h : (m.map Prod.fst).Nodup) :
    ((vmSet m k a).map Prod.fst).Nodup := by
  induction m with
  | nil => simp [vmSet]
  | cons p rest ih =>
    obtain ⟨k0, a0⟩ := p
    simp only [List.map_cons, List.nodup_cons] at h
    by_cases hk : k0 = k
    · subst hk
      have hv : vmSet ((k0, a0) :: rest) k0 a = (k0, a) :: rest := by
        simp [vmSet]
      rw [hv]
      simp only [List.map_cons, List.nodup_cons]
      exact h
    · simp only [vmSet, if_neg hk, List.map_cons, List.nodup_cons]
      refine ⟨?_, ih h.2⟩
      rw [mem_vmSet_keys_iff]
      rintro (rfl | hmem)
      · exact hk rfl
      · exact h.1 hmem

/-- An outer-dict write with a standard inner dict preserves standardness. -/
theorem vmStd_vmSet (m : List (Int × List (String × ℚ))) (k : Int)
    (a : List (String × ℚ)) (hm : vmStd m) (ha : accStd a) :
    vmStd (vmSet m k a) := by
  induction m with
  | nil =>
    intro p hp
    simp [vmSet] at hp
    simp [hp, ha]
  | cons q rest ih =>
    obtain ⟨k0, a0⟩ := q
    have hrest : vmStd rest := fun p hp => hm p (List.mem_cons_of_mem _ hp)
    by_cases hk : k0 = k
    · subst hk
      intro p hp
      have hv : vmSet ((k0, a0) :: rest) k0 a = (k0, a) :: rest := by
        simp [vmSet]
      rw [hv] at hp
      cases List.mem_cons.mp hp with
      | inl h => rw [h]; exact ha
      | inr h => exact hrest p h
    · intro p hp
      simp only [vmSet, if_neg hk, List.mem_cons] at hp
      cases hp with
      | inl h => rw [h]; exact hm (k0, a0) (List.mem_cons_self _ _)
      | inr h => exact ih hrest p h

/-- One aggregation step on a BUY or SELL trade succeeds and grows the bucket
dict by at most the trade's bucket key. -/
theorem aggStep_ok (fidelity : Int) (m : List (Int × List (String × ℚ)))
    (t : Trade) (hm : vmStd m) (hside : t.side ≠ .UNKNOWN) :
    ∃ m', aggStep fidelity m t = .ok m' ∧ vmStd m' ∧
      ((m.map Prod.fst).Nodup → (m'.map Prod.fst).Nodup) ∧
      (∀ k ∈ m.map Prod.fst, k ∈ m'.map Prod.fst) ∧
      chunkOf fidelity t ∈ m'.map Prod.fst := by
  have hacc : accStd ((vmGet m (chunkOf fidelity t)).getD initAcc) :=
    accStd_of_vmStd m (chunkOf fidelity t) hm
  have hside1 : (dictGet initAcc (sideKey t.side)).isSome = true := by
    cases hs : t.side with
    | BUY => decide
    | SELL => decide
    | UNKNOWN => exact absurd hs hside
  have hside2 : (dictGet initAcc (countKey t.side)).isSome = true := by
    cases hs : t.side with
    | BUY => decide
    | SELL => decide
    | UNKNOWN => exact absurd hs hside
  obtain ⟨a1, heq1, hstd1⟩ :=
    accAdd_ok ((vmGet m (chunkOf fidelity t)).getD initAcc) (sideKey t.side)
      t.quantity hacc hside1
  obtain ⟨a2, heq2, hstd2⟩ := accAdd_ok a1 (countKey t.side) 1 hstd1 hside2
  refine ⟨vmSet m (chunkOf fidelity t) a2, ?_, vmStd_vmSet _ _ _ hm hstd2, ?_, ?_, ?_⟩
  · simp only [aggStep, heq1, heq2]
  · exact fun h => nodup_vmSet _ _ _ h
  · intro k hk
    rw [mem_vmSet_keys_iff]
    exact Or.inr hk
  · rw [mem_vmSet_keys_iff]
    exact Or.inl rfl

/-- One aggregation step on an UNKNOWN-side trade raises `KeyError('UNKNOWN')`
(the `defaultdict` factory dict has no `UNKNOWN` key). -/
theorem aggStep_unknown (fidelity : Int) (m : List (Int × List (String × ℚ)))
    (t : Trade) (hm : vmStd m) (hside : t.side = .UNKNOWN) :
    aggStep fidelity m t = .error (.keyError "UNKNOWN") := by
  have hacc : accStd ((vmGet m (chunkOf fidelity t)).getD initAcc) :=
    accStd_of_vmStd m (chunkOf fidelity t) hm
  have h1 : accAdd ((vmGet m (chunkOf fidelity t)).getD initAcc) (sideKey t.side)
      t.quantity = .error (.keyError "UNKNOWN") := by
    rw [hside]
    exact accAdd_unknown _ _ hacc
  simp only [aggStep, h1]

/-- The aggregation loop over BUY/SELL trades succeeds, keeps the bucket keys
distinct, and registers every trade's bucket key. -/
theorem aggLoop_ok (fidelity : Int) :
    ∀ (trades : List Trade) (m : List (Int × List (String × ℚ))),
      vmStd m → (m.map Prod.fst).Nodup →
      (∀ t ∈ trades, t.side ≠ .UNKNOWN) →
      ∃ m', aggLoop fidelity m trades = .ok m' ∧ vmStd m' ∧
        (m'.map Prod.fst).Nodup ∧
        (∀ k ∈ m.map Prod.fst, k ∈ m'.map Prod.fst) ∧
        ∀ t ∈ trades, chunkOf fidelity t ∈ m'.map Prod.fst := by
  intro trades
  induction trades with
  | nil =>
    intro m hm hnd _
    exact ⟨m, rfl, hm, hnd, fun k hk => hk, by simp⟩
  | cons t rest ih =>
    intro m hm hnd hsides
    obtain ⟨m1, heq1, hstd1, hnd1, hsub1, hmem1⟩ :=
      aggStep_ok fidelity m t hm (hsides t (List.mem_cons_self _ _))
    obtain ⟨m', heq', hstd', hnd', hsub', hmem'⟩ :=
      ih m1 hstd1 (hnd1 hnd) (fun t' ht' => hsides t' (List.mem_cons_of_mem _ ht'))
    refine ⟨m', ?_, hstd', hnd', fun k hk => hsub' k (hsub1 k hk), ?_⟩
    · simp only [aggLoop, heq1, heq']
    · intro t' ht'
      rcases List.mem_cons.mp ht' with rfl | ht'
      · exact hsub' _ hmem1
      · exact hmem' t' ht'

/-- The aggregation loop raises `KeyError('UNKNOWN')` as soon as it meets an
UNKNOWN-side trade. -/
theorem aggLoop_unknown (fidelity : Int) :
    ∀ (trades : List Trade) (m : List (Int × List (String × ℚ))),
      vmStd m → (∃ t ∈ trades, t.side = .UNKNOWN) →
      aggLoop fidelity m trades = .error (.keyError "UNKNOWN") := by
  intro trades
  induction trades with
  | nil =>
    intro m _ h
    simp at h
  | cons t rest ih =>
    intro m hm h
    by_cases hside : t.side = .UNKNOWN
    · have := aggStep_unknown fidelity m t hm hside
      simp only [aggLoop, this]
    · obtain ⟨m1, heq1, hstd1, _, _, _⟩ := aggStep_ok fidelity m t hm hside
      have hrest : ∃ t' ∈ rest, t'.side = .UNKNOWN := by
        obtain ⟨t', ht', hs⟩ := h
        rcases List.mem_cons.mp ht' with rfl | ht'
        · exact absurd hs hside
        · exact ⟨t', ht', hs⟩
      simp only [aggLoop, heq1, ih m1 hstd1 hrest]

/-- The timestamps of the emitted records are exactly the keys they were built
from. -/
theorem map_timestamp_bucketOf (m : List (Int × List (String × ℚ)))
    (ks : List Int) :
    ((ks.map fun k => bucketOf m k).map VolumeBucket.timestamp) = ks := by
  induction ks with
  | nil => rfl
  | cons k rest ih =>
    simp only [List.map_cons, ih]
    rfl

/-- C3 (amended): for every sequence of validated trade events whose sides are
all BUY or SELL and every positive bucket width, the Volume Aggregator
completes, maps each event to exactly one emitted bucket with key
`ts - (ts % width)`, and emits the buckets strictly ascending by timestamp;
in particular, events at timestamps 10, 15, 65 with width 60 aggregate into
the two buckets 0 and 60, emitted in ascending order.  (For sequences with an
UNKNOWN-side event the aggregator instead raises `KeyError`, see the
counterexample.) -/
theorem claim3_volume_aggregator (fidelity : Int) (trades : List Trade)
    (_hfid : 0 < fidelity) (hsides : ∀ t ∈ trades, t.side ≠ .UNKNOWN) :
    (∃ buckets, aggregateVolumes fidelity trades = .ok buckets ∧
      (∀ t ∈ trades,
        t.timestamp - t.timestamp % fidelity ∈ buckets.map VolumeBucket.timestamp) ∧
      List.Pairwise (· < ·) (buckets.map VolumeBucket.timestamp) ∧
      (∀ t ∈ trades,
        (buckets.map VolumeBucket.timestamp).count
          (t.timestamp - t.timestamp % fidelity) = 1)) ∧
    aggregateVolumes 60 [⟨10, 1, .BUY⟩, ⟨15, 2, .BUY⟩, ⟨65, 3, .SELL⟩] =
      .ok [⟨0, 3, 0, 2, 0⟩, ⟨60, 0, 3, 0, 1⟩] := by
  refine ⟨?_, by decide⟩
  obtain ⟨m', heq, _hstd, hnd, _hsub, hmem⟩ :=
    aggLoop_ok fidelity trades [] (by intro p hp; simp at hp) (by simp) hsides
  have hperm := List.perm_insertionSort (· ≤ ·) (m'.map Prod.fst)
  have hts : ((((m'.map Prod.fst).insertionSort (· ≤ ·)).map
      fun k => bucketOf m' k).map VolumeBucket.timestamp) =
      (m'.map Prod.fst).insertionSort (· ≤ ·) :=
    map_timestamp_bucketOf m' _
  refine ⟨((m'.map Prod.fst).insertionSort (· ≤ ·)).map fun k => bucketOf m' k,
    ?_, ?_, ?_, ?_⟩
  · simp only [aggregateVolumes, heq]
  · intro t ht
    rw [hts]
    exact hperm.mem_iff.mpr (hmem t ht)
  · rw [hts]
    have hsorted : List.Pairwise (· ≤ ·) ((m'.map Prod.fst).insertionSort (· ≤ ·)) :=
      List.sorted_insertionSort (· ≤ ·) (m'.map Prod.fst)
    have hnd' : ((m'.map Prod.fst).insertionSort (· ≤ ·)).Nodup :=
      hperm.nodup_iff.mpr hnd
    exact (hsorted.and hnd').imp fun h => lt_of_le_of_ne h.1 h.2
  · intro t ht
    rw [hts]
    exact List.count_eq_one_of_mem (hperm.nodup_iff.mpr hnd)
      (hperm.mem_iff.mpr (hmem t ht))

/-- C3 witness: the theorem applied to the three-event example sequence. -/
theorem claim3_witness :
    ∃ buckets, aggregateVolumes 60
        [⟨10, 1, .BUY⟩, ⟨15, 2, .BUY⟩, ⟨65, 3, .SELL⟩] = .ok buckets ∧
      (∀ t ∈ ([⟨10, 1, .BUY⟩, ⟨15, 2, .BUY⟩, ⟨65, 3, .SELL⟩] : List Trade),
        t.timestamp - t.timestamp % 60 ∈ buckets.map VolumeBucket.timestamp) ∧
      List.Pairwise (· < ·) (buckets.map VolumeBucket.timestamp) ∧
      (∀ t ∈ ([⟨10, 1, .BUY⟩, ⟨15, 2, .BUY⟩, ⟨65, 3, .SELL⟩] : List Trade),
        (buckets.map VolumeBucket.timestamp).count
          (t.timestamp - t.timestamp % 60) = 1) :=
  (claim3_volume_aggregator 60 [⟨10, 1, .BUY⟩, ⟨15, 2, .BUY⟩, ⟨65, 3, .SELL⟩]
    (by decide) (by decide)).1

/-- C3 counterexample: a validated trade event may carry side UNKNOWN (the
default when the field is absent); on such a sequence the aggregator raises
`KeyError('UNKNOWN')` and emits no buckets at all, instead of emitting the
bucket 60 for the event at timestamp 70. -/
theorem claim3_counterexample :
    aggregateVolumes 60 [⟨70, 5, .UNKNOWN⟩] = .error (.keyError "UNKNOWN") := by
  decide

/-- C4 (amended): a trade event whose side is UNKNOWN (including a defaulted
absent side) makes the Volume Aggregator raise `KeyError('UNKNOWN')` at that
event — the inner accumulator dict has no `UNKNOWN` key — so the aggregation
produces no output at all rather than silently dropping the event from the
totals. -/
theorem claim4_unknown_side_raises (fidelity : Int) (trades : List Trade)
    (h : ∃ t ∈ trades, t.side = .UNKNOWN) :
    aggregateVolumes fidelity trades = .error (.keyError "UNKNOWN") := by
  have := aggLoop_unknown fidelity trades [] (by intro p hp; simp at hp) h
  simp only [aggregateVolumes, this]

/-- C4 witness: the theorem applied to a concrete trade without a side field. -/
theorem claim4_witness :
    aggregateVolumes 60 [⟨100, 2, .UNKNOWN⟩] = .error (.keyError "UNKNOWN") :=
  claim4_unknown_side_raises 60 [⟨100, 2, .UNKNOWN⟩] ⟨⟨100, 2, .UNKNOWN⟩, by decide⟩

/-- C4 counterexample: the claim says the aggregator completes without error
on an UNKNOWN-side event; instead it raises `KeyError('UNKNOWN')` already on
a single such event. -/
theorem claim4_counterexample :
    aggregateVolumes 60 [⟨10, 1, .UNKNOWN⟩] = .error (.keyError "UNKNOWN") ∧
    ∀ buckets : List VolumeBucket,
      aggregateVolumes 60 [⟨10, 1, .UNKNOWN⟩] ≠ .ok buckets := by
  refine ⟨by decide, ?_⟩
  intro buckets h
  rw [show aggregateVolumes 60 [⟨10, 1, .UNKNOWN⟩] = .error (.keyError "UNKNOWN")
    from by decide] at h
  exact Except.noConfusion h

/-! ### Batch orchestration error policy: C9 -/

/-- C9 (amended): in the batch loop of `fetch`, a per-entity fetch failing
with `APIRequestError` is caught: the entity is omitted from the result map
(absent, not a failure marker) and the remaining entities are still processed;
a successful entity is prepended to the remaining result.  But only
`APIRequestError` is caught: a per-entity fetch failing with any other
exception (`KeyError` from an UNKNOWN-side trade, `ValueError` from an
unparseable date, `IndexError` from an empty token list) propagates and aborts
the whole batch. -/
theorem claim9_fetch_error_policy
    (priceGet : String → Int × Int → Except PyErr (Option (List PricePoint)))
    (tradePages : String → List (Except PyErr (List RawTrade)))
    (iso : String → Option Int) (strp : String → String → Option Int)
    (fidelity : Int) (startD endD : DateInput)
    (q : String) (info : MarketInfo) (rest : List (String × MarketInfo))
    (msg : String) (s : Series) (e : PyErr) :
    (Polymarket.fetchEntity priceGet tradePages iso strp fidelity startD endD info =
        .error (.apiRequestError msg) →
      Polymarket.fetchLoop priceGet tradePages iso strp fidelity startD endD
          ((q, info) :: rest) =
        Polymarket.fetchLoop priceGet tradePages iso strp fidelity startD endD rest) ∧
    (Polymarket.fetchEntity priceGet tradePages iso strp fidelity startD endD info =
        .ok s →
      Polymarket.fetchLoop priceGet tradePages iso strp fidelity startD endD
          ((q, info) :: rest) =
        (Polymarket.fetchLoop priceGet tradePages iso strp fidelity startD endD rest).map
          fun tail => (q, s) :: tail) ∧
    ((∀ m, e ≠ .apiRequestError m) →
      Polymarket.fetchEntity priceGet tradePages iso strp fidelity startD endD info =
        .error e →
      Polymarket.fetchLoop priceGet tradePages iso strp fidelity startD endD
          ((q, info) :: rest) = .error e) := by
  refine ⟨?_, ?_, ?_⟩
  · intro h
    simp only [Polymarket.fetchLoop, h]
  · intro h
    simp only [Polymarket.fetchLoop, h]
    cases Polymarket.fetchLoop priceGet tradePages iso strp fidelity startD endD rest with
    | error e => rfl
    | ok tail => rfl
  · intro hne h
    cases e with
    | apiRequestError m => exact absurd rfl (hne m)
    | invalidURLError m => simp only [Polymarket.fetchLoop, h]
    | valueError m => simp only [Polymarket.fetchLoop, h]
    | keyError k => simp only [Polymarket.fetchLoop, h]
    | indexError m => simp only [Polymarket.fetchLoop, h]

/-- C9 witness: an entity whose trade request fails with `APIRequestError` is
skipped and the loop continues with the remaining entities. -/
theorem claim9_witness :
    Polymarket.fetchLoop priceGetNone tradePagesBoom isoNone strpNone 60
        (.dt 0) (.dt 0) [("q1", infoA), ("q2", infoB)] =
      Polymarket.fetchLoop priceGetNone tradePagesBoom isoNone strpNone 60
        (.dt 0) (.dt 0) [("q2", infoB)] := by
  have hstop := priceHistoryLoop_stop (priceGetNone "t1") 0 0 le_rfl
  have hent : Polymarket.fetchEntity priceGetNone tradePagesBoom isoNone strpNone 60
      (.dt 0) (.dt 0) infoA = .error (.apiRequestError "boom") := by
    simp only [Polymarket.fetchEntity, infoA, Polymarket.price_history,
      Polymarket.parse_date, hstop, Polymarket.volume_history, tradePagesBoom,
      Polymarket.volumeLoop]
  exact (claim9_fetch_error_policy priceGetNone tradePagesBoom isoNone strpNone 60
    (.dt 0) (.dt 0) "q1" infoA [("q2", infoB)] "boom" ⟨[], []⟩
    (.apiRequestError "boom")).1 hent

/-- C9 counterexample: a batch of two entities where the first entity's trade
page holds a single trade without a side field (defaulted to UNKNOWN): its
aggregation raises `KeyError('UNKNOWN')`, which is not caught by the
`except APIRequestError` handler, so the whole batch aborts — the second
entity is never delivered, refuting "a single entity's fetch failure never
aborts the whole batch". -/
theorem claim9_counterexample :
    Polymarket.fetchLoop priceGetNone tradePagesUnknownSide isoNone strpNone 60
        (.dt 0) (.dt 0) [("q1", infoA), ("q2", infoB)] =
      .error (.keyError "UNKNOWN") := by
  have hstop := priceHistoryLoop_stop (priceGetNone "t1") 0 0 le_rfl
  have hagg : aggregateVolumes 3600 [⟨10, 1, .UNKNOWN⟩] =
      .error (.keyError "UNKNOWN") := by decide
  have hent : Polymarket.fetchEntity priceGetNone tradePagesUnknownSide isoNone
      strpNone 60 (.dt 0) (.dt 0) infoA = .error (.keyError "UNKNOWN") := by
    simp only [Polymarket.fetchEntity, infoA, Polymarket.price_history,
      Polymarket.parse_date, hstop, Polymarket.volume_history,
      tradePagesUnknownSide, Polymarket.volumeLoop, validateTrade]
    simp [hagg, validateTrade]
  simp only [Polymarket.fetchLoop, hent]
